import Mathlib

/-!
Shallow embedding of the `slog-filerotate` crate (src/src/lib.rs): a
size-rotating file appender with numbered backups and optional background
gzip compression of retired backups.

Modelling choices:
* The filesystem is an association list from path strings to byte lists
  (bytes are `Nat`).  `rename`/`remove` are the POSIX operations the spec
  assumes; each is guarded in the source exactly as in the model.
* `BufWriter<File>` is a handle carrying its unflushed buffer; flushing
  appends the buffer to the content stored at the appender's path.  Writing
  through a handle whose path was unlinked externally loses the bytes, as
  writes to an unlinked inode do.
* `Instant::now()` is an explicit `now : Nat` argument to each operation;
  `Duration` is milliseconds as `Nat`.
* The one-shot mpsc channel between the appender and a compressor worker is
  a `Chan` value: `alive` is whether the sender endpoint still exists and
  `msg` the buffered message.  `try_recv` on it: a buffered message is
  returned and removed; otherwise a dead sender reports disconnection.
* OS `open` failures are injected through an `oe : Option IoErr` oracle;
  the remaining filesystem calls in the synchronous path are all guarded by
  existence checks in the source, so they are total here.
* The gzip codec is out of scope per the spec and is passed in as an
  arbitrary encoder function `enc` where needed.
-/

namespace SlogRotate

/-- Errors surfaced by the appender, mirroring the `io::Error` values the
source constructs. -/
inductive IoErr where
  | notOpen (path : String)
  | compressionAborted
  | notFound (path : String)
  | osFail (tag : Nat)
deriving DecidableEq

deriving instance DecidableEq for Except

/-- A byte. -/
abbrev Byte := Nat

/-- The modelled filesystem: an association list from paths to contents. -/
abbrev FS := List (String × List Byte)

/-- Look up the content stored at a path. -/
def fsLookup (fs : FS) (p : String) : Option (List Byte) :=
  match fs with
  | [] => none
  | (q, c) :: rest => if q = p then some c else fsLookup rest p

/-- `Path::exists`. -/
def fsExists (fs : FS) (p : String) : Bool :=
  (fsLookup fs p).isSome

/-- Remove any entry at a path. -/
def fsErase : FS → String → FS
  | [], _ => []
  | (q, c) :: rest, p =>
    if q = p then fsErase rest p else (q, c) :: fsErase rest p

/-- Store content at a path, replacing any previous entry. -/
def fsSet (fs : FS) (p : String) (c : List Byte) : FS :=
  (p, c) :: fsErase fs p

/-- POSIX `rename`: move the content at `src` to `dst`, replacing `dst`.
A missing source leaves the filesystem unchanged; the source code only
calls `rename` on paths it has checked to exist. -/
def fsRename (fs : FS) (src dst : String) : FS :=
  match fsLookup fs src with
  | some c => fsSet (fsErase fs src) dst c
  | none => fs

/-- A rename guarded by an existence check, as the cascade loop of
`rotate` performs it (lines 105-109): `if from.exists() { rename }`. -/
def renameIfExists (fs : FS) (src dst : String) : FS :=
  if fsExists fs src then fsRename fs src dst else fs

/-- Append bytes to the file at `p` through an open descriptor.  If the
path was unlinked the bytes go to the orphaned inode and are not visible. -/
def fsAppend (fs : FS) (p : String) (bytes : List Byte) : FS :=
  match fsLookup fs p with
  | some c => fsSet fs p (c ++ bytes)
  | none => fs

/-- An open `BufWriter<File>`: the bytes buffered and not yet flushed. -/
structure Handle where
  buf : List Byte
deriving DecidableEq

/-- The one-shot completion channel of a compressor worker, as seen from
the receiving end: whether the sender endpoint is still alive, and the
buffered message if one was sent and not yet received. -/
structure Chan where
  alive : Bool
  msg : Option (Except IoErr Unit)
deriving DecidableEq

/-- The `FileAppender` state (src/src/lib.rs lines 19-30). -/
structure FileAppender where
  path : String
  file : Option Handle
  truncate : Bool
  written_size : Nat
  rotate_size : Nat
  rotate_keep : Nat
  rotate_compress : Bool
  wait_compression : Option Chan
  next_reopen_check : Nat
  reopen_check_interval : Nat
deriving DecidableEq

namespace FileAppender

/-- `FileAppender::new` (lines 33-52); `now` is `Instant::now()` at
construction time. -/
def new (path : String) (truncate : Bool) (rotate_size : Nat)
    (rotate_keep : Nat) (rotate_compress : Bool) (now : Nat) : FileAppender :=
  { path := path
    file := none
    truncate := truncate
    written_size := 0
    rotate_size := rotate_size
    rotate_keep := rotate_keep
    rotate_compress := rotate_compress
    wait_compression := none
    next_reopen_check := now
    reopen_check_interval := 1000 }

/-- `FileAppender::rotated_path` (lines 142-156).  Lean strings are always
valid UTF-8, so the non-UTF-8 error branch of the source cannot fire. -/
def rotated_path (s : FileAppender) (i : Nat) : String :=
  if s.rotate_compress then
    s.path ++ "." ++ Nat.repr i ++ ".gz"
  else
    s.path ++ "." ++ Nat.repr i

/-- `FileAppender::rotated_paths_for_compression` (lines 158-169). -/
def rotated_paths_for_compression (s : FileAppender) : String × String :=
  (s.path ++ ".1", s.path ++ ".1.gz.temp")

/-- `FileAppender::reopen_if_needed` (lines 54-78).  `oe` injects the
outcome of the OS `open`/`metadata` calls: `some e` makes them fail with
`e`.  Returns the call result together with the updated state and
filesystem. -/
def reopen_if_needed (oe : Option IoErr) (now : Nat) (s : FileAppender)
    (fs : FS) : Except IoErr Unit × FileAppender × FS :=
  let step1 :=
    if s.next_reopen_check ≤ now then
      (fsExists fs s.path,
       { s with next_reopen_check := now + s.reopen_check_interval })
    else
      (true, s)
  let path_exists := step1.1
  let s := step1.2
  if s.file.isNone || !path_exists then
    -- `self.file = None;` drops the old handle; any buffered bytes went to
    -- an unlinked inode (the branch fires with a live handle only when the
    -- path vanished), so they are not visible at the path.
    let s := { s with file := none }
    match oe with
    | some e => (.error e, s, fs)
    | none =>
      let content := if s.truncate then [] else (fsLookup fs s.path).getD []
      let fs := fsSet fs s.path content
      (.ok (),
       { s with file := some ⟨[]⟩, written_size := content.length }, fs)
  else
    (.ok (), s, fs)

/-- The backup cascade loop of `rotate` (lines 104-110): for `i` from `n`
down to 1, if backup `i` exists rename it to backup `i + 1`. -/
def cascade (s : FileAppender) : Nat → FS → FS
  | 0, fs => fs
  | n + 1, fs =>
    cascade s n
      (renameIfExists fs (s.rotated_path (n + 1)) (s.rotated_path (n + 2)))

/-- A compression job handed to a spawned worker: the renamed plain file,
the temporary output, and the final `.gz` destination. -/
structure CompressTask where
  plain : String
  temp : String
  final : String
deriving DecidableEq

/-- Steps of `rotate` after the compression gate (lines 102-139).  The
last component reports the compression job handed to a freshly spawned
worker, if any. -/
def rotateBody (oe : Option IoErr) (now : Nat) (s : FileAppender)
    (fs : FS) : Except IoErr Unit × FileAppender × FS × Option CompressTask :=
  -- `let _ = self.file.take();` — dropping the BufWriter flushes it.
  let fs :=
    match s.file with
    | some h => fsAppend fs s.path h.buf
    | none => fs
  let s := { s with file := none }
  let fs := cascade s s.rotate_keep fs
  let retired :=
    if fsExists fs s.path then
      let rotated := s.rotated_path 1
      if s.rotate_compress then
        let pair := s.rotated_paths_for_compression
        let fs := fsRename fs s.path pair.1
        ({ s with wait_compression := some ⟨true, none⟩ }, fs,
         some ⟨pair.1, pair.2, rotated⟩)
      else
        (s, fsRename fs s.path rotated, none)
    else
      (s, fs, none)
  let s := retired.1
  let fs := retired.2.1
  let spawned := retired.2.2
  let delete_path := s.rotated_path (s.rotate_keep + 1)
  let fs := if fsExists fs delete_path then fsErase fs delete_path else fs
  let s := { s with written_size := 0, next_reopen_check := now }
  let reopened := reopen_if_needed oe now s fs
  (reopened.1, reopened.2.1, reopened.2.2, spawned)

/-- `FileAppender::rotate` (lines 80-140), starting with the compression
gate: a non-blocking poll of the pending worker channel. -/
def rotate (oe : Option IoErr) (now : Nat) (s : FileAppender)
    (fs : FS) : Except IoErr Unit × FileAppender × FS × Option CompressTask :=
  match s.wait_compression with
  | some c =>
    match c.msg with
    | none =>
      if c.alive then
        -- TryRecvError::Empty: still running, abort the attempt.
        (.ok (), s, fs, none)
      else
        -- TryRecvError::Disconnected: the worker died without reporting.
        (.error .compressionAborted, s, fs, none)
    | some r =>
      -- Ok(result): the message is consumed from the channel.
      let s := { s with wait_compression := some ⟨c.alive, none⟩ }
      match r with
      | .error e =>
        -- `result?` propagates before `self.wait_compression = None` runs.
        (.error e, s, fs, none)
      | .ok () =>
        rotateBody oe now { s with wait_compression := none } fs
  | none =>
    rotateBody oe now s fs

/-- `<FileAppender as Write>::write` (lines 184-197). -/
def write (oe : Option IoErr) (now : Nat) (buf : List Byte)
    (s : FileAppender) (fs : FS) : Except IoErr Nat × FileAppender × FS :=
  match reopen_if_needed oe now s fs with
  | (.error e, s, fs) => (.error e, s, fs)
  | (.ok (), s, fs) =>
    match s.file with
    | some h =>
      let size := buf.length
      let s := { s with file := some ⟨h.buf ++ buf⟩ }
      (.ok size, { s with written_size := s.written_size + size }, fs)
    | none =>
      (.error (.notOpen s.path), s, fs)

/-- `<FileAppender as Write>::flush` (lines 199-207). -/
def flush (oe : Option IoErr) (now : Nat) (s : FileAppender)
    (fs : FS) : Except IoErr Unit × FileAppender × FS × Option CompressTask :=
  let flushed :=
    match s.file with
    | some h => ({ s with file := some ⟨[]⟩ }, fsAppend fs s.path h.buf)
    | none => (s, fs)
  let s := flushed.1
  let fs := flushed.2
  if s.rotate_size ≤ s.written_size then
    rotate oe now s fs
  else
    (.ok (), s, fs, none)

/-- `FileAppender::compress` (lines 171-180), run by the worker thread:
open the input, stream it through the encoder into the temporary file,
finalize, rename the temporary file onto the final path, delete the input.
`enc` is the black-box gzip codec.  Returns the first error together with
the filesystem as the worker left it. -/
def compress (enc : List Byte → List Byte) (fs : FS)
    (input_path temp_path output_path : String) : Except IoErr Unit × FS :=
  match fsLookup fs input_path with
  | none => (.error (.notFound input_path), fs)
  | some c =>
    let fs := fsSet fs temp_path (enc c)
    match fsLookup fs temp_path with
    | none => (.error (.notFound temp_path), fs)
    | some tc =>
      let fs := fsSet (fsErase fs temp_path) output_path tc
      match fsLookup fs input_path with
      | none => (.error (.notFound input_path), fs)
      | some _ => (.ok (), fsErase fs input_path)

end FileAppender

/-! ### The concurrent system for the worker claims

A `Sys` is the whole picture at one instant: the appender, the filesystem,
and the list of compressor workers currently running.  Events interleave
the caller's synchronous `write`/`flush` calls with worker completion or
death; a completing worker performs its filesystem work and sends on its
channel atomically, a crashing worker just drops its sender. -/

/-- Whole-system state: appender, filesystem, running compressor workers. -/
structure Sys where
  app : FileAppender
  fs : FS
  workers : List FileAppender.CompressTask
deriving DecidableEq

/-- An interleaving event: a caller operation or a worker outcome. -/
inductive Ev where
  | write (now : Nat) (oe : Option IoErr) (buf : List Byte)
  | flush (now : Nat) (oe : Option IoErr)
  | finish
  | crash
deriving DecidableEq

/-- The worker sends its result on the channel and its sender is dropped. -/
def chanSend (w : Option Chan) (r : Except IoErr Unit) : Option Chan :=
  match w with
  | some _ => some ⟨false, some r⟩
  | none => none

/-- The worker dies without sending: its sender endpoint is dropped. -/
def chanKill (w : Option Chan) : Option Chan :=
  match w with
  | some c => some ⟨false, c.msg⟩
  | none => none

/-- One interleaving step. -/
def stepSys (enc : List Byte → List Byte) (ev : Ev) (sys : Sys) : Sys :=
  match ev with
  | .write now oe buf =>
    let r := FileAppender.write oe now buf sys.app sys.fs
    ⟨r.2.1, r.2.2, sys.workers⟩
  | .flush now oe =>
    let r := FileAppender.flush oe now sys.app sys.fs
    ⟨r.2.1, r.2.2.1, sys.workers ++ r.2.2.2.toList⟩
  | .finish =>
    match sys.workers with
    | [] => sys
    | t :: rest =>
      let r := FileAppender.compress enc sys.fs t.plain t.temp t.final
      ⟨{ sys.app with
           wait_compression := chanSend sys.app.wait_compression r.1 },
       r.2, rest⟩
  | .crash =>
    match sys.workers with
    | [] => sys
    | _ :: rest =>
      ⟨{ sys.app with
           wait_compression := chanKill sys.app.wait_compression },
       sys.fs, rest⟩

/-- Run a sequence of events. -/
def runSys (enc : List Byte → List Byte) : List Ev → Sys → Sys
  | [], sys => sys
  | ev :: evs, sys => runSys enc evs (stepSys enc ev sys)

/-- The system right after `FileAppender::new`: no worker is running. -/
def initSys (path : String) (truncate : Bool) (rotate_size rotate_keep : Nat)
    (rotate_compress : Bool) (now : Nat) (fs0 : FS) : Sys :=
  ⟨FileAppender.new path truncate rotate_size rotate_keep rotate_compress now,
   fs0, []⟩

/-- The at-most-one-compression-in-flight invariant: never more than one
worker runs, and while one runs the appender holds its pending completion
handle (channel alive, nothing received) and the worker's three paths all
differ from the active path. -/
def SysInv (sys : Sys) : Prop :=
  sys.workers.length ≤ 1 ∧
  ∀ t ∈ sys.workers,
    sys.app.wait_compression = some ⟨true, none⟩ ∧
    t.plain ≠ sys.app.path ∧ t.temp ≠ sys.app.path ∧ t.final ≠ sys.app.path

/-! ### Decimal representation: `Nat.repr` is injective

Backup paths are built with `format!("{}.{}", path, i)`; distinctness of
backup slots reduces to injectivity of the decimal numeral string. -/

/-- The digit list `Nat.toDigitsCore` produces once its fuel suffices,
written as a structurally transparent recursion. -/
def digitsAux (n : Nat) : List Char :=
  if n / 10 = 0 then [Nat.digitChar (n % 10)]
  else digitsAux (n / 10) ++ [Nat.digitChar (n % 10)]
decreasing_by
  exact Nat.div_lt_self (Nat.pos_of_ne_zero (by omega)) (by omega)

/-- Decode a digit string back to the number it denotes. -/
def digitsVal (l : List Char) : Nat :=
  l.foldl (fun a c => a * 10 + (c.toNat - 48)) 0

theorem toDigitsCore_eq_digitsAux :
    ∀ (fuel n : Nat) (acc : List Char), n < fuel →
      Nat.toDigitsCore 10 fuel n acc = digitsAux n ++ acc := by
  intro fuel
  induction fuel with
  | zero => intro n acc h; omega
  | succ fuel ih =>
    intro n acc h
    rw [Nat.toDigitsCore, digitsAux]
    by_cases h10 : n / 10 = 0
    · simp [h10]
    · have hlt : n / 10 < fuel := by
        have : n / 10 < n := Nat.div_lt_self (Nat.pos_of_ne_zero (by omega)) (by omega)
        omega
      simp only [h10, if_false, ih (n / 10) _ hlt, List.append_assoc,
        List.singleton_append]

theorem digitsVal_append (l : List Char) (c : Char) :
    digitsVal (l ++ [c]) = digitsVal l * 10 + (c.toNat - 48) := by
  simp [digitsVal, List.foldl_append]

theorem digitChar_val (d : Nat) (h : d < 10) :
    (Nat.digitChar d).toNat - 48 = d := by
  interval_cases d <;> rfl

theorem digitsVal_digitsAux (n : Nat) : digitsVal (digitsAux n) = n := by
  induction n using Nat.strong_induction_on with
  | _ n ih =>
    rw [digitsAux]
    by_cases h10 : n / 10 = 0
    · simp only [h10, if_true, digitsVal, List.foldl_cons, List.foldl_nil]
      rw [Nat.zero_mul, Nat.zero_add, digitChar_val (n % 10) (Nat.mod_lt _ (by omega))]
      omega
    · have hlt : n / 10 < n := Nat.div_lt_self (Nat.pos_of_ne_zero (by omega)) (by omega)
      simp only [h10, if_false, digitsVal_append, ih (n / 10) hlt,
        digitChar_val (n % 10) (Nat.mod_lt _ (by omega))]
      omega

theorem digitsAux_injective {m n : Nat} (h : digitsAux m = digitsAux n) :
    m = n := by
  have := congrArg digitsVal h
  rwa [digitsVal_digitsAux, digitsVal_digitsAux] at this

theorem toDigits_eq_digitsAux (n : Nat) :
    Nat.toDigits 10 n = digitsAux n := by
  rw [Nat.toDigits, toDigitsCore_eq_digitsAux (n + 1) n [] (by omega),
    List.append_nil]

theorem repr_data (n : Nat) : (Nat.repr n).data = digitsAux n := by
  rw [Nat.repr]
  show (Nat.toDigits 10 n).asString.data = digitsAux n
  rw [toDigits_eq_digitsAux]
  rfl

theorem repr_injective {m n : Nat} (h : Nat.repr m = Nat.repr n) : m = n :=
  digitsAux_injective (by rw [← repr_data, ← repr_data, h])

/-! ### Filesystem lookup lemmas -/

theorem fsLookup_fsErase (fs : FS) (p q : String) :
    fsLookup (fsErase fs p) q = if q = p then none else fsLookup fs q := by
  induction fs with
  | nil => simp [fsErase, fsLookup]
  | cons e rest ih =>
    obtain ⟨r, c⟩ := e
    by_cases hrp : r = p <;> by_cases hqp : q = p <;> by_cases hrq : r = q <;>
      simp_all [fsErase, fsLookup]

theorem fsLookup_fsSet (fs : FS) (p : String) (c : List Byte) (q : String) :
    fsLookup (fsSet fs p c) q = if q = p then some c else fsLookup fs q := by
  by_cases h : q = p
  · simp [fsSet, fsLookup, h]
  · have h2 : ¬p = q := fun hh => h hh.symm
    simp [fsSet, fsLookup, fsLookup_fsErase, h, h2]

theorem fsLookup_fsAppend_other (fs : FS) (p : String) (bytes : List Byte)
    (q : String) (h : q ≠ p) : fsLookup (fsAppend fs p bytes) q = fsLookup fs q := by
  unfold fsAppend
  cases fsLookup fs p <;> simp [fsLookup_fsSet, h]

theorem fsLookup_renameIfExists_src (fs : FS) (src dst : String)
    (h : src ≠ dst) : fsLookup (renameIfExists fs src dst) src = none := by
  unfold renameIfExists fsRename fsExists
  cases hl : fsLookup fs src <;>
    simp [hl, fsLookup_fsSet, fsLookup_fsErase, h]

theorem fsLookup_renameIfExists_dst (fs : FS) (src dst : String)
    (h : src ≠ dst) (hd : fsLookup fs dst = none) :
    fsLookup (renameIfExists fs src dst) dst = fsLookup fs src := by
  unfold renameIfExists fsRename fsExists
  cases hl : fsLookup fs src <;>
    simp [hl, hd, fsLookup_fsSet, fsLookup_fsErase, h]

theorem fsLookup_renameIfExists_other (fs : FS) (src dst q : String)
    (hs : q ≠ src) (hd : q ≠ dst) :
    fsLookup (renameIfExists fs src dst) q = fsLookup fs q := by
  unfold renameIfExists fsRename fsExists
  cases hl : fsLookup fs src <;>
    simp [hl, fsLookup_fsSet, fsLookup_fsErase, hs, hd]

theorem fsLookup_fsAppend_nil (fs : FS) (p q : String) :
    fsLookup (fsAppend fs p []) q = fsLookup fs q := by
  unfold fsAppend
  cases hl : fsLookup fs p
  · rfl
  · by_cases h : q = p <;> simp [fsLookup_fsSet, h, hl]

theorem fsLookup_fsRename_src (fs : FS) (src dst : String) (h : src ≠ dst) :
    fsLookup (fsRename fs src dst) src = none := by
  unfold fsRename
  cases hl : fsLookup fs src <;>
    simp [hl, fsLookup_fsSet, fsLookup_fsErase, h]

theorem fsLookup_fsRename_dst (fs : FS) (src dst : String) (c : List Byte)
    (h : src ≠ dst) (hsrc : fsLookup fs src = some c) :
    fsLookup (fsRename fs src dst) dst = some c := by
  unfold fsRename
  simp [hsrc, fsLookup_fsSet]

theorem fsLookup_fsRename_other (fs : FS) (src dst q : String)
    (hs : q ≠ src) (hd : q ≠ dst) :
    fsLookup (fsRename fs src dst) q = fsLookup fs q := by
  unfold fsRename
  cases hl : fsLookup fs src <;>
    simp [hl, fsLookup_fsSet, fsLookup_fsErase, hs, hd]

theorem fsLookup_eraseIfExists_self (fs : FS) (p : String) :
    fsLookup (if fsExists fs p then fsErase fs p else fs) p = none := by
  unfold fsExists
  cases hl : fsLookup fs p <;> simp [hl, fsLookup_fsErase]

theorem fsLookup_eraseIfExists_other (fs : FS) (p q : String) (h : q ≠ p) :
    fsLookup (if fsExists fs p then fsErase fs p else fs) q = fsLookup fs q := by
  unfold fsExists
  cases hl : fsLookup fs p <;> simp [hl, fsLookup_fsErase, h]

namespace FileAppender

theorem rotated_path_injective (s : FileAppender) {i j : Nat}
    (h : s.rotated_path i = s.rotated_path j) : i = j := by
  apply repr_injective
  have hd := congrArg String.data h
  unfold rotated_path at hd
  by_cases hc : s.rotate_compress <;>
    simp only [hc, if_true, if_false, String.data_append] at hd
  · exact congrArg String.mk
      (List.append_cancel_left (List.append_cancel_right hd))
  · exact congrArg String.mk (List.append_cancel_left hd)

theorem rotated_path_length (s : FileAppender) (i : Nat) :
    s.path.length < (s.rotated_path i).length := by
  unfold rotated_path
  have h1 : ".".length = 1 := rfl
  have h2 : ".gz".length = 3 := rfl
  by_cases hc : s.rotate_compress <;>
    simp only [hc, Bool.false_eq_true, if_true, if_false,
      String.length_append] <;>
    omega

theorem rotated_path_ne_path (s : FileAppender) (i : Nat) :
    s.rotated_path i ≠ s.path := by
  intro h
  have := rotated_path_length s i
  rw [h] at this
  omega

theorem rotated_path_ne (s : FileAppender) {a b : Nat} (hab : a ≠ b) :
    s.rotated_path a ≠ s.rotated_path b :=
  fun h => hab (s.rotated_path_injective h)

/-- What the cascade loop does to the filesystem, index by index:
backups shift one slot up (each target slot having been vacated by the
preceding higher-index iteration), slot 1 is vacated, the slot one past
the loop gets the old top backup provided it was empty before, and every
path outside slots `1..n+1` is untouched. -/
theorem cascade_spec (s : FileAppender) : ∀ (n : Nat) (fs : FS),
    (∀ j, 1 ≤ j → j + 1 ≤ n →
      fsLookup (cascade s n fs) (s.rotated_path (j + 1)) =
        fsLookup fs (s.rotated_path j)) ∧
    (fsLookup fs (s.rotated_path (n + 1)) = none → 1 ≤ n →
      fsLookup (cascade s n fs) (s.rotated_path (n + 1)) =
        fsLookup fs (s.rotated_path n)) ∧
    (∀ q, (∀ j, 1 ≤ j → j ≤ n + 1 → q ≠ s.rotated_path j) →
      fsLookup (cascade s n fs) q = fsLookup fs q) ∧
    (1 ≤ n → fsLookup (cascade s n fs) (s.rotated_path 1) = none) := by
  intro n
  induction n with
  | zero =>
    intro fs
    exact ⟨fun j h1 h2 => by omega, fun _ h1 => by omega,
      fun q _ => rfl, fun h1 => by omega⟩
  | succ n ih =>
    intro fs
    have hstep : cascade s (n + 1) fs =
        cascade s n
          (renameIfExists fs (s.rotated_path (n + 1)) (s.rotated_path (n + 2))) :=
      rfl
    set fs1 := renameIfExists fs (s.rotated_path (n + 1)) (s.rotated_path (n + 2))
      with hfs1
    refine ⟨?_, ?_, ?_, ?_⟩
    · intro j hj1 hj2
      rw [hstep]
      by_cases hj : j + 1 ≤ n
      · rw [(ih fs1).1 j hj1 hj]
        exact fsLookup_renameIfExists_other fs _ _ _
          (s.rotated_path_ne (by omega)) (s.rotated_path_ne (by omega))
      · have hjn : j = n := by omega
        subst hjn
        rw [(ih fs1).2.1
          (fsLookup_renameIfExists_src fs _ _ (s.rotated_path_ne (by omega)))
          (by omega)]
        exact fsLookup_renameIfExists_other fs _ _ _
          (s.rotated_path_ne (by omega)) (s.rotated_path_ne (by omega))
    · intro hnone _
      rw [hstep]
      rw [(ih fs1).2.2.1 (s.rotated_path (n + 2))
        (fun j h1 h2 => s.rotated_path_ne (by omega))]
      exact fsLookup_renameIfExists_dst fs _ _
        (s.rotated_path_ne (by omega)) hnone
    · intro q hq
      rw [hstep]
      rw [(ih fs1).2.2.1 q (fun j h1 h2 => hq j h1 (by omega))]
      exact fsLookup_renameIfExists_other fs _ _ _
        (hq (n + 1) (by omega) (by omega)) (hq (n + 2) (by omega) (by omega))
    · intro _
      rw [hstep]
      rcases Nat.eq_zero_or_pos n with hn | hn
      · subst hn
        exact fsLookup_renameIfExists_src fs _ _ (s.rotated_path_ne (by omega))
      · exact (ih fs1).2.2.2 hn

theorem rotated_path_mk (p : String) (f : Option Handle) (tr : Bool)
    (ws rsz rk : Nat) (rc : Bool) (wc : Option Chan) (nc ri : Nat) (i : Nat) :
    rotated_path ⟨p, f, tr, ws, rsz, rk, rc, wc, nc, ri⟩ i =
      (if rc then p ++ "." ++ Nat.repr i ++ ".gz"
       else p ++ "." ++ Nat.repr i) := rfl

end FileAppender

theorem string_append_ne (p t : String) (h : 0 < t.length) : p ++ t ≠ p := by
  intro he
  have := congrArg String.length he
  rw [String.length_append] at this
  omega

theorem fsLookup_eraseIfExists_none (fs : FS) (p q : String)
    (h : fsLookup fs q = none) :
    fsLookup (if fsExists fs p then fsErase fs p else fs) q = none := by
  by_cases hqp : q = p
  · subst hqp
    exact fsLookup_eraseIfExists_self fs q
  · rw [fsLookup_eraseIfExists_other fs p q hqp]
    exact h

namespace FileAppender

/-- The Reopen Supervisor never touches the configuration fields, the
pending-compression handle, or any path other than the active one. -/
theorem reopen_frame (oe : Option IoErr) (now : Nat) (s : FileAppender)
    (fs : FS) :
    (reopen_if_needed oe now s fs).2.1.path = s.path ∧
    (reopen_if_needed oe now s fs).2.1.wait_compression = s.wait_compression ∧
    (reopen_if_needed oe now s fs).2.1.truncate = s.truncate ∧
    (reopen_if_needed oe now s fs).2.1.rotate_size = s.rotate_size ∧
    (reopen_if_needed oe now s fs).2.1.rotate_keep = s.rotate_keep ∧
    (reopen_if_needed oe now s fs).2.1.rotate_compress = s.rotate_compress ∧
    (∀ q, q ≠ s.path →
      fsLookup (reopen_if_needed oe now s fs).2.2 q = fsLookup fs q) := by
  obtain ⟨p, f, tr, ws, rsz, rk, rc, wc, nc, ri⟩ := s
  unfold reopen_if_needed
  dsimp only
  split <;> split <;> (try cases oe) <;>
    simp [fsLookup_fsSet]
  all_goals intro q hq
  all_goals first
    | rfl
    | (intro h; exact absurd h hq)

/-- If the (re)open branch fires with no injected OS failure, the handle
is fresh and `written_size` equals the on-disk length of the file. -/
theorem reopen_taken (now : Nat) (s : FileAppender) (fs : FS)
    (h : s.file = none ∨ (s.next_reopen_check ≤ now ∧ fsLookup fs s.path = none)) :
    (reopen_if_needed none now s fs).1 = .ok () ∧
    (reopen_if_needed none now s fs).2.1.file = some ⟨[]⟩ ∧
    (reopen_if_needed none now s fs).2.1.written_size =
      (if s.truncate then [] else (fsLookup fs s.path).getD []).length ∧
    fsLookup (reopen_if_needed none now s fs).2.2 s.path =
      some (if s.truncate then [] else (fsLookup fs s.path).getD []) := by
  obtain ⟨p, f, tr, ws, rsz, rk, rc, wc, nc, ri⟩ := s
  simp only at h
  unfold reopen_if_needed
  dsimp only
  split
  · rcases h with h | h
    · subst h
      simp [fsLookup_fsSet]
    · rw [show fsExists fs p = false from by unfold fsExists; rw [h.2]; rfl]
      simp [fsLookup_fsSet]
  · rcases h with h | h
    · subst h
      simp [fsLookup_fsSet]
    · omega

/-- The throttled check not due and a live handle: reopen does nothing. -/
theorem reopen_skip (oe : Option IoErr) (now : Nat) (s : FileAppender)
    (fs : FS) (hdl : Handle) (hf : s.file = some hdl)
    (h : ¬s.next_reopen_check ≤ now ∨ fsExists fs s.path = true) :
    (reopen_if_needed oe now s fs).1 = .ok () ∧
    (reopen_if_needed oe now s fs).2.1.file = s.file ∧
    (reopen_if_needed oe now s fs).2.1.written_size = s.written_size ∧
    (reopen_if_needed oe now s fs).2.2 = fs := by
  obtain ⟨p, f, tr, ws, rsz, rk, rc, wc, nc, ri⟩ := s
  simp only at hf h ⊢
  subst hf
  unfold reopen_if_needed
  dsimp only
  split
  · rcases h with h | h
    · omega
    · rw [h]
      simp
  · simp

/-- A successful reopen always leaves an open handle. -/
theorem reopen_ok_file (oe : Option IoErr) (now : Nat) (s : FileAppender)
    (fs : FS) (h : (reopen_if_needed oe now s fs).1 = .ok ()) :
    (reopen_if_needed oe now s fs).2.1.file.isSome = true := by
  obtain ⟨p, f, tr, ws, rsz, rk, rc, wc, nc, ri⟩ := s
  unfold reopen_if_needed at h ⊢
  dsimp only at h ⊢
  by_cases hthr : nc ≤ now <;>
    simp only [if_pos, if_neg, hthr, if_true, if_false] at h ⊢
  · by_cases hbr : ((f.isNone || !fsExists fs p) = true)
    · rw [if_pos hbr] at h ⊢
      cases oe with
      | some e => exact absurd h (by simp)
      | none => rfl
    · rw [if_neg hbr] at h ⊢
      simp only [Bool.or_eq_true, not_or, Bool.not_eq_true] at hbr
      cases f with
      | none => simp at hbr
      | some hdl => rfl
  · by_cases hbr : ((f.isNone || !true) = true)
    · rw [if_pos hbr] at h ⊢
      cases oe with
      | some e => exact absurd h (by simp)
      | none => rfl
    · rw [if_neg hbr] at h ⊢
      simp only [Bool.or_eq_true, not_or, Bool.not_eq_true] at hbr
      cases f with
      | none => simp at hbr
      | some hdl => rfl

end FileAppender

namespace FileAppender

theorem write_ok (oe : Option IoErr) (now : Nat) (buf : List Byte)
    (s : FileAppender) (fs : FS)
    (h : (reopen_if_needed oe now s fs).1 = .ok ()) :
    (write oe now buf s fs).1 = .ok buf.length ∧
    (write oe now buf s fs).2.1.written_size =
      (reopen_if_needed oe now s fs).2.1.written_size + buf.length ∧
    (write oe now buf s fs).2.1.path = s.path ∧
    (write oe now buf s fs).2.1.wait_compression = s.wait_compression ∧
    (write oe now buf s fs).2.2 = (reopen_if_needed oe now s fs).2.2 := by
  have hfile := reopen_ok_file oe now s fs h
  have hframe := reopen_frame oe now s fs
  unfold write
  split
  · rename_i e s2 fs2 heq
    rw [heq] at h
    simp at h
  · rename_i s2 fs2 heq
    rw [heq] at hfile hframe ⊢
    dsimp only at hfile hframe ⊢
    split
    · rename_i hdl heq2
      exact ⟨rfl, rfl, hframe.1, hframe.2.1, rfl⟩
    · rename_i heq2
      rw [heq2] at hfile
      simp at hfile

theorem write_err (oe : Option IoErr) (now : Nat) (buf : List Byte)
    (s : FileAppender) (fs : FS) (e : IoErr)
    (h : (write oe now buf s fs).1 = .error e) :
    (reopen_if_needed oe now s fs).1 = .error e := by
  unfold write at h
  split at h
  · rename_i e2 s2 fs2 heq
    simp only [Except.error.injEq] at h
    subst h
    rw [heq]
  · rename_i s2 fs2 heq
    split at h
    · simp at h
    · rename_i heq2
      exfalso
      have hok : (reopen_if_needed oe now s fs).1 = .ok () := by rw [heq]
      have := reopen_ok_file oe now s fs hok
      rw [heq] at this
      dsimp only at this
      rw [heq2] at this
      simp at this



theorem fsExists_false_lookup (fs : FS) (p : String)
    (h : fsExists fs p = false) : fsLookup fs p = none := by
  unfold fsExists at h
  exact Option.not_isSome_iff_eq_none.1 (by simp [h])

theorem reopen_written_zero (oe : Option IoErr) (now : Nat) (s : FileAppender)
    (fs : FS) (hf : s.file = none) (hw : s.written_size = 0)
    (hm : fsLookup fs s.path = none) :
    (reopen_if_needed oe now s fs).2.1.written_size = 0 := by
  obtain ⟨p, f, tr, ws, rsz, rk, rc, wc, nc, ri⟩ := s
  simp only at hf hw hm
  subst hf hw
  unfold reopen_if_needed
  dsimp only
  split <;> cases oe <;> simp [hm, ite_self]

theorem rotateBody_path (oe : Option IoErr) (now : Nat) (s : FileAppender)
    (fs : FS) : (rotateBody oe now s fs).2.1.path = s.path := by
  obtain ⟨p, f, tr, ws, rsz, rk, rc, wc, nc, ri⟩ := s
  unfold rotateBody
  dsimp only
  split <;> (try split) <;> exact (reopen_frame _ _ _ _).1

theorem rotateBody_written (oe : Option IoErr) (now : Nat) (s : FileAppender)
    (fs : FS) : (rotateBody oe now s fs).2.1.written_size = 0 := by
  obtain ⟨p, f, tr, ws, rsz, rk, rc, wc, nc, ri⟩ := s
  unfold rotateBody
  dsimp only
  split
  · split
    · apply reopen_written_zero _ _ _ _ rfl rfl
      apply fsLookup_eraseIfExists_none
      exact fsLookup_fsRename_src _ _ _
        (Ne.symm (string_append_ne p ".1" (by decide)))
    · apply reopen_written_zero _ _ _ _ rfl rfl
      apply fsLookup_eraseIfExists_none
      exact fsLookup_fsRename_src _ _ _
        (Ne.symm (rotated_path_ne_path ⟨p, none, tr, ws, rsz, rk, rc, wc, nc, ri⟩ 1))
  · rename_i hE
    rw [Bool.not_eq_true] at hE
    apply reopen_written_zero _ _ _ _ rfl rfl
    exact fsLookup_eraseIfExists_none _ _ _ (fsExists_false_lookup _ _ hE)

theorem rotateBody_spawn (oe : Option IoErr) (now : Nat) (s : FileAppender)
    (fs : FS) :
    ((rotateBody oe now s fs).2.2.2 = none ∧
     (rotateBody oe now s fs).2.1.wait_compression = s.wait_compression) ∨
    ((rotateBody oe now s fs).2.2.2 =
       some ⟨s.path ++ ".1", s.path ++ ".1.gz.temp", s.rotated_path 1⟩ ∧
     (rotateBody oe now s fs).2.1.wait_compression = some ⟨true, none⟩) := by
  obtain ⟨p, f, tr, ws, rsz, rk, rc, wc, nc, ri⟩ := s
  unfold rotateBody
  dsimp only
  split
  · split
    · right
      exact ⟨rfl, (reopen_frame _ _ _ _).2.1⟩
    · left
      exact ⟨rfl, (reopen_frame _ _ _ _).2.1⟩
  · left
    exact ⟨rfl, (reopen_frame _ _ _ _).2.1⟩



theorem rotate_gate_empty (oe : Option IoErr) (now : Nat) (s : FileAppender)
    (fs : FS) (h : s.wait_compression = some ⟨true, none⟩) :
    rotate oe now s fs = (.ok (), s, fs, none) := by
  unfold rotate
  rw [h]
  rfl

theorem rotate_gate_dead (oe : Option IoErr) (now : Nat) (s : FileAppender)
    (fs : FS) (h : s.wait_compression = some ⟨false, none⟩) :
    rotate oe now s fs = (.error .compressionAborted, s, fs, none) := by
  unfold rotate
  rw [h]
  rfl

theorem rotate_gate_err (oe : Option IoErr) (now : Nat) (s : FileAppender)
    (fs : FS) (a : Bool) (e : IoErr)
    (h : s.wait_compression = some ⟨a, some (.error e)⟩) :
    rotate oe now s fs =
      (.error e, { s with wait_compression := some ⟨a, none⟩ }, fs, none) := by
  unfold rotate
  rw [h]

theorem rotate_eq_body_none (oe : Option IoErr) (now : Nat) (s : FileAppender)
    (fs : FS) (h : s.wait_compression = none) :
    rotate oe now s fs = rotateBody oe now s fs := by
  unfold rotate
  rw [h]

theorem rotate_eq_body_consumed (oe : Option IoErr) (now : Nat)
    (s : FileAppender) (fs : FS) (a : Bool)
    (h : s.wait_compression = some ⟨a, some (.ok ())⟩) :
    rotate oe now s fs =
      rotateBody oe now { s with wait_compression := none } fs := by
  unfold rotate
  rw [h]

theorem rotate_path (oe : Option IoErr) (now : Nat) (s : FileAppender)
    (fs : FS) : (rotate oe now s fs).2.1.path = s.path := by
  rcases hw : s.wait_compression with _ | ⟨a, msg⟩
  · rw [rotate_eq_body_none oe now s fs hw]
    exact rotateBody_path oe now s fs
  · rcases msg with _ | r
    · cases a
      · rw [rotate_gate_dead oe now s fs hw]
      · rw [rotate_gate_empty oe now s fs hw]
    · rcases r with e | u
      · rw [rotate_gate_err oe now s fs a e hw]
      · cases u
        rw [rotate_eq_body_consumed oe now s fs a hw]
        exact rotateBody_path oe now _ fs

theorem rotate_spawn_some (oe : Option IoErr) (now : Nat) (s : FileAppender)
    (fs : FS) (t : CompressTask) (h : (rotate oe now s fs).2.2.2 = some t) :
    t = ⟨s.path ++ ".1", s.path ++ ".1.gz.temp", s.rotated_path 1⟩ ∧
    (rotate oe now s fs).2.1.wait_compression = some ⟨true, none⟩ := by
  rcases hw : s.wait_compression with _ | ⟨a, msg⟩
  · rw [rotate_eq_body_none oe now s fs hw] at h ⊢
    rcases rotateBody_spawn oe now s fs with ⟨h1, h2⟩ | ⟨h1, h2⟩
    · rw [h1] at h
      cases h
    · rw [h1] at h
      refine ⟨(Option.some.injEq _ _ ▸ h).symm, h2⟩
  · rcases msg with _ | r
    · cases a
      · rw [rotate_gate_dead oe now s fs hw] at h
        cases h
      · rw [rotate_gate_empty oe now s fs hw] at h
        cases h
    · rcases r with e | u
      · rw [rotate_gate_err oe now s fs a e hw] at h
        cases h
      · cases u
        rw [rotate_eq_body_consumed oe now s fs a hw] at h ⊢
        rcases rotateBody_spawn oe now { s with wait_compression := none } fs
          with ⟨h1, h2⟩ | ⟨h1, h2⟩
        · rw [h1] at h
          cases h
        · rw [h1] at h
          refine ⟨(Option.some.injEq _ _ ▸ h).symm, h2⟩



theorem write_frame (oe : Option IoErr) (now : Nat) (buf : List Byte)
    (s : FileAppender) (fs : FS) :
    (write oe now buf s fs).2.1.path = s.path ∧
    (write oe now buf s fs).2.1.wait_compression = s.wait_compression ∧
    (∀ q, q ≠ s.path →
      fsLookup (write oe now buf s fs).2.2 q = fsLookup fs q) := by
  have hframe := reopen_frame oe now s fs
  unfold write
  split
  · rename_i e s2 fs2 heq
    rw [heq] at hframe
    exact ⟨hframe.1, hframe.2.1, hframe.2.2.2.2.2.2⟩
  · rename_i s2 fs2 heq
    rw [heq] at hframe
    dsimp only at hframe ⊢
    split
    · exact ⟨hframe.1, hframe.2.1, hframe.2.2.2.2.2.2⟩
    · exact ⟨hframe.1, hframe.2.1, hframe.2.2.2.2.2.2⟩

theorem flush_path (oe : Option IoErr) (now : Nat) (s : FileAppender)
    (fs : FS) : (flush oe now s fs).2.1.path = s.path := by
  unfold flush
  cases hf : s.file <;> dsimp only <;> split
  · exact rotate_path oe now _ _
  · rfl
  · exact rotate_path oe now _ _
  · rfl

theorem flush_pending (oe : Option IoErr) (now : Nat) (s : FileAppender)
    (fs : FS) (h : s.wait_compression = some ⟨true, none⟩) :
    (flush oe now s fs).1 = .ok () ∧
    (flush oe now s fs).2.1.wait_compression = s.wait_compression ∧
    (flush oe now s fs).2.2.2 = none ∧
    (∀ q, q ≠ s.path →
      fsLookup (flush oe now s fs).2.2.1 q = fsLookup fs q) := by
  unfold flush
  cases hf : s.file with
  | none =>
    dsimp only
    split
    · rw [rotate_gate_empty oe now s fs h]
      exact ⟨rfl, rfl, rfl, fun q hq => rfl⟩
    · exact ⟨rfl, rfl, rfl, fun q hq => rfl⟩
  | some hdl =>
    dsimp only
    split
    · rw [rotate_gate_empty oe now { s with file := some ⟨[]⟩ }
        (fsAppend fs s.path hdl.buf) h]
      refine ⟨rfl, rfl, rfl, fun q hq => ?_⟩
      exact fsLookup_fsAppend_other fs s.path hdl.buf q hq
    · refine ⟨rfl, rfl, rfl, fun q hq => ?_⟩
      exact fsLookup_fsAppend_other fs s.path hdl.buf q hq

theorem flush_spawn_some (oe : Option IoErr) (now : Nat) (s : FileAppender)
    (fs : FS) (t : CompressTask) (h : (flush oe now s fs).2.2.2 = some t) :
    t = ⟨s.path ++ ".1", s.path ++ ".1.gz.temp", s.rotated_path 1⟩ ∧
    (flush oe now s fs).2.1.wait_compression = some ⟨true, none⟩ := by
  obtain ⟨p, f, tr, ws, rsz, rk, rc, wc, nc, ri⟩ := s
  cases f with
  | none =>
    unfold flush at h ⊢
    dsimp only at h ⊢
    split at h
    · rename_i ht
      rw [if_pos ht]
      exact rotate_spawn_some oe now _ fs t h
    · cases h
  | some hdl =>
    unfold flush at h ⊢
    dsimp only at h ⊢
    split at h
    · rename_i ht
      rw [if_pos ht]
      exact rotate_spawn_some oe now _ _ t h
    · cases h


end FileAppender

theorem sysInv_init (p : String) (tr : Bool) (rsz rk : Nat) (cp : Bool)
    (now : Nat) (fs0 : FS) : SysInv (initSys p tr rsz rk cp now fs0) := by
  constructor
  · simp [initSys]
  · intro t ht
    simp [initSys] at ht

theorem sysInv_step (enc : List Byte → List Byte) (ev : Ev) (sys : Sys)
    (h : SysInv sys) : SysInv (stepSys enc ev sys) := by
  obtain ⟨app, fs, workers⟩ := sys
  obtain ⟨hlen, hw⟩ := h
  dsimp only at hlen hw
  cases ev with
  | write now oe buf =>
    have wf := FileAppender.write_frame oe now buf app fs
    dsimp only [stepSys]
    refine ⟨hlen, fun t ht => ?_⟩
    obtain ⟨h1, h2, h3, h4⟩ := hw t ht
    refine ⟨wf.2.1.trans h1, ?_, ?_, ?_⟩ <;>
      rw [wf.1] <;> assumption
  | flush now oe =>
    have fp := FileAppender.flush_path oe now app fs
    dsimp only [stepSys]
    rcases hsp : (FileAppender.flush oe now app fs).2.2.2 with _ | t2
    · refine ⟨?_, fun t ht => ?_⟩
      · simpa using hlen
      · have ht' : t ∈ workers := by simpa using ht
        obtain ⟨h1, h2, h3, h4⟩ := hw t ht'
        have pend := FileAppender.flush_pending oe now app fs h1
        dsimp only
        exact ⟨pend.2.1.trans h1, by rw [fp]; exact h2, by rw [fp]; exact h3,
          by rw [fp]; exact h4⟩
    · have sp := FileAppender.flush_spawn_some oe now app fs t2 hsp
      have hwnil : workers = [] := by
        cases hwk : workers with
        | nil => rfl
        | cons t rest =>
          exfalso
          have h1 := (hw t (by rw [hwk]; exact List.mem_cons_self t rest)).1
          have pend := FileAppender.flush_pending oe now app fs h1
          rw [pend.2.2.1] at hsp
          cases hsp
      subst hwnil
      refine ⟨?_, fun t ht => ?_⟩
      · simp
      · have ht2 : t = t2 := by simpa using ht
        subst ht2
        rw [sp.1]
        refine ⟨sp.2, ?_, ?_, ?_⟩ <;> dsimp only <;> rw [fp]
        · exact string_append_ne app.path ".1" (by decide)
        · exact string_append_ne app.path ".1.gz.temp" (by decide)
        · exact app.rotated_path_ne_path 1
  | finish =>
    cases workers with
    | nil => exact ⟨hlen, hw⟩
    | cons t rest =>
      have hrest : rest = [] := by
        rw [List.length_cons] at hlen
        exact List.eq_nil_of_length_eq_zero (by omega)
      subst hrest
      exact ⟨by simp [stepSys], fun t2 ht2 => by simp [stepSys] at ht2⟩
  | crash =>
    cases workers with
    | nil => exact ⟨hlen, hw⟩
    | cons t rest =>
      have hrest : rest = [] := by
        rw [List.length_cons] at hlen
        exact List.eq_nil_of_length_eq_zero (by omega)
      subst hrest
      exact ⟨by simp [stepSys], fun t2 ht2 => by simp [stepSys] at ht2⟩

theorem sysInv_run (enc : List Byte → List Byte) (evs : List Ev) (sys : Sys)
    (h : SysInv sys) : SysInv (runSys enc evs sys) := by
  induction evs generalizing sys with
  | nil => exact h
  | cons ev evs ih => exact ih _ (sysInv_step enc ev sys h)


open FileAppender

/-- Claim C1: with rotate_size 10, rotate_keep 2, no compression, starting
from no file, writing "hello" and flushing rotates nothing; writing
"world!" and flushing triggers a rotation, after which the active file is
empty and backup 1 holds exactly "helloworld!". -/
theorem C1_example_rotation :
    (let s0 := FileAppender.new "log" false 10 2 false 0
     let w1 := FileAppender.write none 0 [104, 101, 108, 108, 111] s0 []
     let f1 := FileAppender.flush none 0 w1.2.1 w1.2.2
     let w2 := FileAppender.write none 0 [119, 111, 114, 108, 100, 33]
       f1.2.1 f1.2.2.1
     let f2 := FileAppender.flush none 0 w2.2.1 w2.2.2
     w1.1 = .ok 5 ∧ f1.1 = .ok () ∧ w2.1 = .ok 6 ∧ f2.1 = .ok () ∧
     fsLookup f1.2.2.1 "log" = some [104, 101, 108, 108, 111] ∧
     fsLookup f1.2.2.1 "log.1" = none ∧
     fsLookup f2.2.2.1 "log" = some [] ∧
     fsLookup f2.2.2.1 "log.1" =
       some [104, 101, 108, 108, 111, 119, 111, 114, 108, 100, 33] ∧
     f2.2.1.written_size = 0) := by
  decide

/-- Claim C3: a rotation attempt made while the pending compression is
still running (channel alive, nothing received) returns success and
changes nothing: the whole appender state, the filesystem, and the
no-worker-spawned output are all exactly the inputs. -/
theorem C3_pending_frame (oe : Option IoErr) (now : Nat) (s : FileAppender)
    (fs : FS) (h : s.wait_compression = some ⟨true, none⟩) :
    rotate oe now s fs = (.ok (), s, fs, none) :=
  rotate_gate_empty oe now s fs h

theorem C3_pending_frame_witness :
    rotate none 5 ⟨"log", some ⟨[]⟩, false, 11, 10, 2, false,
        some ⟨true, none⟩, 0, 1000⟩ [("log", [1, 2])] =
      (.ok (), ⟨"log", some ⟨[]⟩, false, 11, 10, 2, false,
        some ⟨true, none⟩, 0, 1000⟩, [("log", [1, 2])], none) :=
  C3_pending_frame none 5 _ _ rfl

/-- Claim C4 as stated is false: when the poll yields a worker-reported
error, `result?` exits `rotate` before `self.wait_compression = None`
runs, so the consumed handle is kept.  Concretely: polling a completed
error result leaves `wait_compression` non-`None`. -/
theorem C4_error_keeps_handle :
    (rotate none 0 ⟨"log", none, false, 0, 10, 2, false,
        some ⟨false, some (.error (.osFail 3))⟩, 0, 1000⟩ []).2.1.wait_compression
      ≠ none := by
  decide

/-- Claim C4, amended: after the poll yields a completed result, the
handle is `None` when the result was a success (and is re-armed only for
a worker newly spawned by this same rotation); after a worker-reported
error the handle is kept, holding the already-consumed channel. -/
theorem C4_amended_handle_lifecycle :
    (∀ (oe : Option IoErr) (now : Nat) (s : FileAppender) (fs : FS) (a : Bool),
      s.wait_compression = some ⟨a, some (.ok ())⟩ →
      (rotate oe now s fs).2.1.wait_compression =
        (match (rotate oe now s fs).2.2.2 with
         | some _ => some ⟨true, none⟩
         | none => none)) ∧
    (∀ (oe : Option IoErr) (now : Nat) (s : FileAppender) (fs : FS)
        (a : Bool) (e : IoErr),
      s.wait_compression = some ⟨a, some (.error e)⟩ →
      (rotate oe now s fs).2.1.wait_compression = some ⟨a, none⟩) := by
  constructor
  · intro oe now s fs a h
    rw [rotate_eq_body_consumed oe now s fs a h]
    rcases rotateBody_spawn oe now { s with wait_compression := none } fs
      with ⟨h1, h2⟩ | ⟨h1, h2⟩
    · rw [h1]
      exact h2
    · rw [h1]
      exact h2
  · intro oe now s fs a e h
    rw [rotate_gate_err oe now s fs a e h]

theorem C4_amended_handle_lifecycle_witness :
    (rotate none 0 ⟨"log", none, false, 0, 10, 2, false,
        some ⟨false, some (.ok ())⟩, 0, 1000⟩ []).2.1.wait_compression =
      (match (rotate none 0 ⟨"log", none, false, 0, 10, 2, false,
        some ⟨false, some (.ok ())⟩, 0, 1000⟩ []).2.2.2 with
       | some _ => some ⟨true, none⟩
       | none => none) ∧
    (rotate none 0 ⟨"log", none, false, 0, 10, 2, false,
        some ⟨true, some (.error (.osFail 3))⟩, 0, 1000⟩ []).2.1.wait_compression =
      some ⟨true, none⟩ :=
  ⟨C4_amended_handle_lifecycle.1 none 0 _ [] false rfl,
   C4_amended_handle_lifecycle.2 none 0 _ [] true (.osFail 3) rfl⟩

/-- Claim C5: during the compression gate, a severed worker channel makes
`rotate` fail with the fatal worker-lost error, and a worker-reported
error propagates; in both cases nothing is rotated — the state (except
the consumed message), filesystem, and spawn output are untouched. -/
theorem C5_gate_errors :
    (∀ (oe : Option IoErr) (now : Nat) (s : FileAppender) (fs : FS),
      s.wait_compression = some ⟨false, none⟩ →
      rotate oe now s fs = (.error .compressionAborted, s, fs, none)) ∧
    (∀ (oe : Option IoErr) (now : Nat) (s : FileAppender) (fs : FS)
        (a : Bool) (e : IoErr),
      s.wait_compression = some ⟨a, some (.error e)⟩ →
      rotate oe now s fs =
        (.error e, { s with wait_compression := some ⟨a, none⟩ }, fs, none)) :=
  ⟨fun oe now s fs h => rotate_gate_dead oe now s fs h,
   fun oe now s fs a e h => rotate_gate_err oe now s fs a e h⟩

theorem C5_gate_errors_witness :
    rotate none 0 ⟨"log", none, false, 0, 10, 2, false,
        some ⟨false, none⟩, 0, 1000⟩ [] =
      (.error .compressionAborted, ⟨"log", none, false, 0, 10, 2, false,
        some ⟨false, none⟩, 0, 1000⟩, [], none) ∧
    rotate none 0 ⟨"log", none, false, 0, 10, 2, false,
        some ⟨true, some (.error (.osFail 3))⟩, 0, 1000⟩ [] =
      (.error (.osFail 3), ⟨"log", none, false, 0, 10, 2, false,
        some ⟨true, none⟩, 0, 1000⟩, [], none) :=
  ⟨C5_gate_errors.1 none 0 _ [] rfl,
   C5_gate_errors.2 none 0 _ [] true (.osFail 3) rfl⟩


open FileAppender

/-- Claim C6 as stated fails at rotate_keep = 0: the retiring file is
renamed to slot 1 and then immediately deleted by the prune step (slot
rotate_keep + 1 = 1), so after a successful non-compressed rotation
backup slot 1 does not hold the previously active file. -/
theorem C6_keep_zero_deletes_slot1 :
    (rotate none 5 ⟨"log", some ⟨[]⟩, false, 11, 10, 0, false, none, 0, 1000⟩
      [("log", [104])]).1 = .ok () ∧
    fsLookup (rotate none 5 ⟨"log", some ⟨[]⟩, false, 11, 10, 0, false,
      none, 0, 1000⟩ [("log", [104])]).2.2.1 "log.1" = none := by
  decide

/-- Claim C6, amended: in a successful non-compressed rotation with
rotate_keep ≥ 1, slot 1 holds the previously active bytes; for
j + 1 ≤ rotate_keep slot j+1 holds what slot j held; the slot at
rotate_keep + 1 is deleted (at rotate_keep = 0 this deletes the
just-retired file itself); backups beyond it are untouched; and the
active path is recreated empty. -/
theorem C6_amended_cascade_shift (s : FileAppender) (fs : FS) (now : Nat)
    (content : List Byte)
    (hw : s.wait_compression = none)
    (hc : s.rotate_compress = false)
    (hb : s.file = some ⟨[]⟩)
    (hex : fsLookup fs s.path = some content) :
    (rotate none now s fs).1 = .ok () ∧
    (1 ≤ s.rotate_keep →
      fsLookup (rotate none now s fs).2.2.1 (s.rotated_path 1) = some content) ∧
    (∀ j, 1 ≤ j → j + 1 ≤ s.rotate_keep →
      fsLookup (rotate none now s fs).2.2.1 (s.rotated_path (j + 1)) =
        fsLookup fs (s.rotated_path j)) ∧
    fsLookup (rotate none now s fs).2.2.1
      (s.rotated_path (s.rotate_keep + 1)) = none ∧
    (∀ j, s.rotate_keep + 2 ≤ j →
      fsLookup (rotate none now s fs).2.2.1 (s.rotated_path j) =
        fsLookup fs (s.rotated_path j)) ∧
    fsLookup (rotate none now s fs).2.2.1 s.path = some [] := by
  obtain ⟨p, f, tr, ws, rsz, rk, rc, wc, nc, ri⟩ := s
  simp only at hw hc hb hex
  subst hw hc hb
  have hppj : ∀ j : Nat, (p ++ "." ++ Nat.repr j) ≠ p :=
    fun j => rotated_path_ne_path ⟨p, none, tr, ws, rsz, rk, false, none, nc, ri⟩ j
  have hinj : ∀ a b : Nat, a ≠ b →
      (p ++ "." ++ Nat.repr a) ≠ (p ++ "." ++ Nat.repr b) :=
    fun a b hab => rotated_path_ne ⟨p, none, tr, ws, rsz, rk, false, none, nc, ri⟩ hab
  have hfs2path : fsLookup
      (cascade ⟨p, none, tr, ws, rsz, rk, false, none, nc, ri⟩ rk (fsAppend fs p []))
      p = some content := by
    rw [(cascade_spec ⟨p, none, tr, ws, rsz, rk, false, none, nc, ri⟩ rk
      (fsAppend fs p [])).2.2.1 p
      (fun j h1 h2 => Ne.symm (rotated_path_ne_path _ j))]
    rw [fsLookup_fsAppend_nil]
    exact hex
  have hex2 : fsExists
      (cascade ⟨p, none, tr, ws, rsz, rk, false, none, nc, ri⟩ rk (fsAppend fs p []))
      p = true := by
    unfold fsExists
    rw [hfs2path]
    rfl
  have h4path : fsLookup
      (if fsExists
           (fsRename
             (cascade ⟨p, none, tr, ws, rsz, rk, false, none, nc, ri⟩ rk (fsAppend fs p []))
             p (rotated_path ⟨p, none, tr, ws, rsz, rk, false, none, nc, ri⟩ 1))
           (rotated_path ⟨p, none, tr, ws, rsz, rk, false, none, nc, ri⟩ (rk + 1)) then
         fsErase
           (fsRename
             (cascade ⟨p, none, tr, ws, rsz, rk, false, none, nc, ri⟩ rk (fsAppend fs p []))
             p (rotated_path ⟨p, none, tr, ws, rsz, rk, false, none, nc, ri⟩ 1))
           (rotated_path ⟨p, none, tr, ws, rsz, rk, false, none, nc, ri⟩ (rk + 1))
       else
         fsRename
           (cascade ⟨p, none, tr, ws, rsz, rk, false, none, nc, ri⟩ rk (fsAppend fs p []))
           p (rotated_path ⟨p, none, tr, ws, rsz, rk, false, none, nc, ri⟩ 1))
      p = none := by
    rw [fsLookup_eraseIfExists_other _ _ _
      (Ne.symm (rotated_path_ne_path _ (rk + 1)))]
    exact fsLookup_fsRename_src _ _ _ (Ne.symm (rotated_path_ne_path _ 1))
  have key : rotateBody none now ⟨p, some ⟨[]⟩, tr, ws, rsz, rk, false, none, nc, ri⟩ fs =
      (.ok (),
       (⟨p, some ⟨[]⟩, tr, 0, rsz, rk, false, none, now + ri, ri⟩ : FileAppender),
       fsSet
         (if fsExists
              (fsRename
                (cascade ⟨p, none, tr, ws, rsz, rk, false, none, nc, ri⟩ rk (fsAppend fs p []))
                p (rotated_path ⟨p, none, tr, ws, rsz, rk, false, none, nc, ri⟩ 1))
              (rotated_path ⟨p, none, tr, ws, rsz, rk, false, none, nc, ri⟩ (rk + 1)) then
            fsErase
              (fsRename
                (cascade ⟨p, none, tr, ws, rsz, rk, false, none, nc, ri⟩ rk (fsAppend fs p []))
                p (rotated_path ⟨p, none, tr, ws, rsz, rk, false, none, nc, ri⟩ 1))
              (rotated_path ⟨p, none, tr, ws, rsz, rk, false, none, nc, ri⟩ (rk + 1))
          else
            fsRename
              (cascade ⟨p, none, tr, ws, rsz, rk, false, none, nc, ri⟩ rk (fsAppend fs p []))
              p (rotated_path ⟨p, none, tr, ws, rsz, rk, false, none, nc, ri⟩ 1))
         p [],
       none) := by
    unfold rotateBody
    dsimp only
    simp only [Bool.false_eq_true, if_false, hex2, if_true]
    unfold reopen_if_needed
    dsimp only
    rw [if_pos (Nat.le_refl now)]
    simp only [Option.isNone_none, Bool.true_or, if_true]
    rw [h4path]
    dsimp only [Option.getD]
    simp only [ite_self]
    rfl
  have hrot : rotate none now ⟨p, some ⟨[]⟩, tr, ws, rsz, rk, false, none, nc, ri⟩ fs =
      rotateBody none now ⟨p, some ⟨[]⟩, tr, ws, rsz, rk, false, none, nc, ri⟩ fs := rfl
  rw [hrot, key]
  dsimp only
  simp only [rotated_path_mk, Bool.false_eq_true, if_false]
  have hcas1 : ∀ j, 1 ≤ j → j + 1 ≤ rk →
      fsLookup (cascade ⟨p, none, tr, ws, rsz, rk, false, none, nc, ri⟩ rk
        (fsAppend fs p [])) (p ++ "." ++ Nat.repr (j + 1)) =
        fsLookup (fsAppend fs p []) (p ++ "." ++ Nat.repr j) :=
    fun j h1 h2 =>
      (cascade_spec ⟨p, none, tr, ws, rsz, rk, false, none, nc, ri⟩ rk
        (fsAppend fs p [])).1 j h1 h2
  have hcasfr : ∀ q, (∀ j, 1 ≤ j → j ≤ rk + 1 → q ≠ p ++ "." ++ Nat.repr j) →
      fsLookup (cascade ⟨p, none, tr, ws, rsz, rk, false, none, nc, ri⟩ rk
        (fsAppend fs p [])) q = fsLookup (fsAppend fs p []) q :=
    fun q hq =>
      (cascade_spec ⟨p, none, tr, ws, rsz, rk, false, none, nc, ri⟩ rk
        (fsAppend fs p [])).2.2.1 q hq
  refine ⟨trivial, ?_, ?_, ?_, ?_, ?_⟩
  · intro hrk
    rw [fsLookup_fsSet]
    rw [if_neg (hppj 1)]
    rw [fsLookup_eraseIfExists_other _ _ _ (hinj 1 (rk + 1) (by omega))]
    exact fsLookup_fsRename_dst _ _ _ _ (Ne.symm (hppj 1)) hfs2path
  · intro j h1 h2
    rw [fsLookup_fsSet, if_neg (hppj (j + 1))]
    rw [fsLookup_eraseIfExists_other _ _ _ (hinj (j + 1) (rk + 1) (by omega))]
    rw [fsLookup_fsRename_other _ _ _ _ (hppj (j + 1)) (hinj (j + 1) 1 (by omega))]
    rw [hcas1 j h1 h2, fsLookup_fsAppend_nil]
  · rw [fsLookup_fsSet, if_neg (hppj (rk + 1))]
    exact fsLookup_eraseIfExists_self _ _
  · intro j hj
    rw [fsLookup_fsSet, if_neg (hppj j)]
    rw [fsLookup_eraseIfExists_other _ _ _ (hinj j (rk + 1) (by omega))]
    rw [fsLookup_fsRename_other _ _ _ _ (hppj j) (hinj j 1 (by omega))]
    rw [hcasfr _ (fun i hi1 hi2 => hinj j i (by omega)), fsLookup_fsAppend_nil]
  · rw [fsLookup_fsSet, if_pos rfl]

theorem C6_amended_cascade_shift_witness :
    fsLookup (rotate none 5 ⟨"log", some ⟨[]⟩, false, 11, 10, 2, false,
        none, 0, 1000⟩ [("log", [7, 8]), ("log.1", [1]), ("log.2", [2])]).2.2.1
      ((⟨"log", some ⟨[]⟩, false, 11, 10, 2, false,
        none, 0, 1000⟩ : FileAppender).rotated_path 1) = some [7, 8] ∧
    fsLookup (rotate none 5 ⟨"log", some ⟨[]⟩, false, 11, 10, 2, false,
        none, 0, 1000⟩ [("log", [7, 8]), ("log.1", [1]), ("log.2", [2])]).2.2.1
      ((⟨"log", some ⟨[]⟩, false, 11, 10, 2, false,
        none, 0, 1000⟩ : FileAppender).rotated_path 2) = some [1] ∧
    fsLookup (rotate none 5 ⟨"log", some ⟨[]⟩, false, 11, 10, 2, false,
        none, 0, 1000⟩ [("log", [7, 8]), ("log.1", [1]), ("log.2", [2])]).2.2.1
      ((⟨"log", some ⟨[]⟩, false, 11, 10, 2, false,
        none, 0, 1000⟩ : FileAppender).rotated_path 3) = none ∧
    fsLookup (rotate none 5 ⟨"log", some ⟨[]⟩, false, 11, 10, 2, false,
        none, 0, 1000⟩ [("log", [7, 8]), ("log.1", [1]), ("log.2", [2])]).2.2.1
      "log" = some [] := by
  have h := C6_amended_cascade_shift
    ⟨"log", some ⟨[]⟩, false, 11, 10, 2, false, none, 0, 1000⟩
    [("log", [7, 8]), ("log.1", [1]), ("log.2", [2])] 5 [7, 8]
    rfl rfl rfl rfl
  refine ⟨h.2.1 (by decide), ?_, h.2.2.2.1, h.2.2.2.2.2⟩
  exact (h.2.2.1 1 (by decide) (by decide)).trans (by decide)


open FileAppender

/-- Claim C7 as stated is false: `written_size` is not reset to 0 at
first creation — the (re)open sets it to the on-disk length.  Opening a
fresh appender (truncate = false) over an existing 5-byte file leaves
written_size = 5. -/
theorem C7_first_open_not_zero :
    (reopen_if_needed none 0 (FileAppender.new "log" false 10 2 false 0)
      [("log", [1, 2, 3, 4, 5])]).2.1.written_size = 5 ∧
    (reopen_if_needed none 0 (FileAppender.new "log" false 10 2 false 0)
      [("log", [1, 2, 3, 4, 5])]).2.1.written_size ≠ 0 := by
  decide

/-- Claim C7, amended: whenever the (re)open branch fires, written_size
is set to the on-disk length of the (possibly truncated) file — which is
0 for the fresh empty file a rotation leaves behind; when the branch does
not fire it is unchanged; a write adds exactly the bytes written; a flush
below the threshold leaves it unchanged; a rotation that passes the gate
resets it to 0. -/
theorem C7_amended_written_size :
    (∀ (now : Nat) (s : FileAppender) (fs : FS),
      s.file = none ∨ (s.next_reopen_check ≤ now ∧ fsLookup fs s.path = none) →
      (reopen_if_needed none now s fs).2.1.written_size =
        (if s.truncate then [] else (fsLookup fs s.path).getD []).length) ∧
    (∀ (oe : Option IoErr) (now : Nat) (s : FileAppender) (fs : FS)
        (hdl : Handle), s.file = some hdl →
      (¬s.next_reopen_check ≤ now ∨ fsExists fs s.path = true) →
      (reopen_if_needed oe now s fs).2.1.written_size = s.written_size) ∧
    (∀ (oe : Option IoErr) (now : Nat) (buf : List Byte) (s : FileAppender)
        (fs : FS), (reopen_if_needed oe now s fs).1 = .ok () →
      (write oe now buf s fs).2.1.written_size =
        (reopen_if_needed oe now s fs).2.1.written_size + buf.length) ∧
    (∀ (oe : Option IoErr) (now : Nat) (s : FileAppender) (fs : FS),
      s.written_size < s.rotate_size →
      (flush oe now s fs).2.1.written_size = s.written_size) ∧
    (∀ (oe : Option IoErr) (now : Nat) (s : FileAppender) (fs : FS),
      (s.wait_compression = none ∨
        ∃ a, s.wait_compression = some ⟨a, some (.ok ())⟩) →
      (rotate oe now s fs).2.1.written_size = 0) := by
  refine ⟨?_, ?_, ?_, ?_, ?_⟩
  · intro now s fs h
    exact (reopen_taken now s fs h).2.2.1
  · intro oe now s fs hdl hf h
    exact (reopen_skip oe now s fs hdl hf h).2.2.1
  · intro oe now buf s fs h
    exact (write_ok oe now buf s fs h).2.1
  · intro oe now s fs h
    obtain ⟨p, f, tr, ws, rsz, rk, rc, wc, nc, ri⟩ := s
    simp only at h
    cases f <;>
      (unfold flush; dsimp only; rw [if_neg (by omega)])
  · intro oe now s fs h
    rcases h with h | ⟨a, h⟩
    · rw [rotate_eq_body_none oe now s fs h]
      exact rotateBody_written oe now s fs
    · rw [rotate_eq_body_consumed oe now s fs a h]
      exact rotateBody_written oe now _ fs

theorem C7_amended_written_size_witness :
    (reopen_if_needed none 0 (FileAppender.new "log" false 10 2 false 0)
      []).2.1.written_size = 0 ∧
    (reopen_if_needed none 0 ⟨"log", some ⟨[]⟩, false, 7, 10, 2, false,
      none, 1000, 1000⟩ [("log", [4])]).2.1.written_size = 7 ∧
    (write none 0 [9, 9] (FileAppender.new "log" false 10 2 false 0)
      []).2.1.written_size = 2 ∧
    (flush none 0 ⟨"log", some ⟨[]⟩, false, 7, 10, 2, false,
      none, 1000, 1000⟩ [("log", [4])]).2.1.written_size = 7 ∧
    (rotate none 0 ⟨"log", some ⟨[]⟩, false, 11, 10, 2, false,
      none, 0, 1000⟩ [("log", [4])]).2.1.written_size = 0 ∧
    (rotate none 0 ⟨"log", some ⟨[]⟩, false, 11, 10, 2, false,
      some ⟨false, some (.ok ())⟩, 0, 1000⟩ [("log", [4])]).2.1.written_size = 0 := by
  refine ⟨?_, ?_, ?_, ?_, ?_, ?_⟩
  · exact (C7_amended_written_size.1 0 (FileAppender.new "log" false 10 2 false 0)
      [] (Or.inl rfl)).trans (by decide)
  · exact (C7_amended_written_size.2.1 none 0 _ [("log", [4])] ⟨[]⟩ rfl
      (Or.inl (by decide))).trans (by decide)
  · exact (C7_amended_written_size.2.2.1 none 0 [9, 9]
      (FileAppender.new "log" false 10 2 false 0) [] (by decide)).trans (by decide)
  · exact (C7_amended_written_size.2.2.2.1 none 0 _ [("log", [4])]
      (by decide)).trans (by decide)
  · exact C7_amended_written_size.2.2.2.2 none 0 _ [("log", [4])] (Or.inl rfl)
  · exact C7_amended_written_size.2.2.2.2 none 0 _ [("log", [4])]
      (Or.inr ⟨false, rfl⟩)

/-- Claim C10: whenever reopen_if_needed returns Ok the handle is open,
so the not-open branch of write is unreachable after a successful reopen
— write then succeeds with the full byte count, and write can only fail
with the error reopen_if_needed itself failed with. -/
theorem C10_not_open_unreachable (oe : Option IoErr) (now : Nat)
    (buf : List Byte) (s : FileAppender) (fs : FS) :
    ((reopen_if_needed oe now s fs).1 = .ok () →
      (reopen_if_needed oe now s fs).2.1.file.isSome = true ∧
      (write oe now buf s fs).1 = .ok buf.length) ∧
    (∀ e, (write oe now buf s fs).1 = .error e →
      (reopen_if_needed oe now s fs).1 = .error e) :=
  ⟨fun h => ⟨reopen_ok_file oe now s fs h, (write_ok oe now buf s fs h).1⟩,
   fun e h => write_err oe now buf s fs e h⟩

theorem C10_not_open_unreachable_witness :
    (reopen_if_needed none 3 (FileAppender.new "log" false 10 2 false 0)
      []).2.1.file.isSome = true ∧
    (write none 3 [5] (FileAppender.new "log" false 10 2 false 0) []).1 =
      .ok 1 :=
  (C10_not_open_unreachable none 3 [5]
    (FileAppender.new "log" false 10 2 false 0) []).1 (by decide)


open FileAppender

theorem fsLookup_fsAppend_self (fs : FS) (p : String) (bytes c : List Byte)
    (h : fsLookup fs p = some c) :
    fsLookup (fsAppend fs p bytes) p = some (c ++ bytes) := by
  unfold fsAppend
  rw [h]
  rw [fsLookup_fsSet, if_pos rfl]

theorem fsSet_self_lookup (fs : FS) (p : String) (c : List Byte) :
    fsLookup (fsSet fs p c) p = some c := by
  rw [fsLookup_fsSet, if_pos rfl]

/-- Claim C9: the compressor worker opens the input, streams it through
the encoder into the temporary file, renames the finished temporary file
onto the final path and deletes the input, in that order; it reports the
first error (here: the input being unreadable) and success only when all
steps succeed, so the final path holds exactly the complete encoded
artifact and the temporary and input files are gone. -/
theorem C9_compress_worker (enc : List Byte → List Byte) (fs : FS)
    (input temp output : String) (hit : input ≠ temp) (hio : input ≠ output)
    (hto : temp ≠ output) :
    (∀ c, fsLookup fs input = some c →
      (compress enc fs input temp output).1 = .ok () ∧
      fsLookup (compress enc fs input temp output).2 output = some (enc c) ∧
      fsLookup (compress enc fs input temp output).2 temp = none ∧
      fsLookup (compress enc fs input temp output).2 input = none) ∧
    (fsLookup fs input = none →
      compress enc fs input temp output = (.error (.notFound input), fs)) := by
  constructor
  · intro c hc
    have l1 : fsLookup (fsSet fs temp (enc c)) temp = some (enc c) :=
      fsSet_self_lookup fs temp (enc c)
    have l2 : fsLookup
        (fsSet (fsErase (fsSet fs temp (enc c)) temp) output (enc c)) input =
        some c := by
      rw [fsLookup_fsSet, if_neg hio, fsLookup_fsErase, if_neg hit,
        fsLookup_fsSet, if_neg hit]
      exact hc
    unfold compress
    rw [hc]
    dsimp only
    rw [l1]
    dsimp only
    rw [l2]
    dsimp only
    refine ⟨rfl, ?_, ?_, ?_⟩
    · rw [fsLookup_fsErase, if_neg (Ne.symm hio), fsLookup_fsSet, if_pos rfl]
    · rw [fsLookup_fsErase, if_neg (Ne.symm hit), fsLookup_fsSet, if_neg hto,
        fsLookup_fsErase, if_pos rfl]
    · rw [fsLookup_fsErase, if_pos rfl]
  · intro h
    unfold compress
    rw [h]

theorem C9_compress_worker_witness :
    (compress (fun c => 99 :: c) [("in", [1, 2])] "in" "t" "out").1 = .ok () ∧
    fsLookup (compress (fun c => 99 :: c) [("in", [1, 2])] "in" "t" "out").2
      "out" = some [99, 1, 2] ∧
    fsLookup (compress (fun c => 99 :: c) [("in", [1, 2])] "in" "t" "out").2
      "t" = none ∧
    fsLookup (compress (fun c => 99 :: c) [("in", [1, 2])] "in" "t" "out").2
      "in" = none :=
  (C9_compress_worker (fun c => 99 :: c) [("in", [1, 2])] "in" "t" "out"
    (by decide) (by decide) (by decide)).1 [1, 2] (by decide)


open FileAppender

/-- Claim C8: the Reopen Supervisor opens create-if-missing with
truncate-or-append per the flag and sets written_size to the on-disk
length; and a fresh appender over an existing non-empty file with
truncate = false resumes byte counting after the existing length and a
flush appends rather than overwrites. -/
theorem C8_reopen_resume :
    (∀ (now : Nat) (s : FileAppender) (fs : FS),
      s.file = none ∨ (s.next_reopen_check ≤ now ∧ fsLookup fs s.path = none) →
      (reopen_if_needed none now s fs).1 = .ok () ∧
      (reopen_if_needed none now s fs).2.1.file = some ⟨[]⟩ ∧
      (reopen_if_needed none now s fs).2.1.written_size =
        (if s.truncate then [] else (fsLookup fs s.path).getD []).length ∧
      fsLookup (reopen_if_needed none now s fs).2.2 s.path =
        some (if s.truncate then [] else (fsLookup fs s.path).getD [])) ∧
    (∀ (p : String) (c : List Byte) (rsz rk : Nat) (cp : Bool) (now0 : Nat)
        (fs : FS) (buf : List Byte), fsLookup fs p = some c →
      (write none now0 buf (FileAppender.new p false rsz rk cp now0) fs).1 =
        .ok buf.length ∧
      (write none now0 buf (FileAppender.new p false rsz rk cp now0)
        fs).2.1.written_size = c.length + buf.length ∧
      (c.length + buf.length < rsz →
        fsLookup (FileAppender.flush none now0
          (write none now0 buf (FileAppender.new p false rsz rk cp now0) fs).2.1
          (write none now0 buf (FileAppender.new p false rsz rk cp now0)
            fs).2.2).2.2.1 p = some (c ++ buf))) := by
  constructor
  · intro now s fs h
    exact reopen_taken now s fs h
  · intro p c rsz rk cp now0 fs buf hc
    have hre : reopen_if_needed none now0 (FileAppender.new p false rsz rk cp now0) fs =
        (.ok (), ⟨p, some ⟨[]⟩, false, c.length, rsz, rk, cp, none,
          now0 + 1000, 1000⟩, fsSet fs p c) := by
      unfold FileAppender.new reopen_if_needed
      dsimp only
      rw [if_pos (Nat.le_refl now0)]
      simp only [Option.isNone_none, Bool.true_or, if_true,
        Bool.false_eq_true, if_false]
      rw [hc]
      dsimp only [Option.getD]
    have hwr : write none now0 buf (FileAppender.new p false rsz rk cp now0) fs =
        (.ok buf.length, ⟨p, some ⟨[] ++ buf⟩, false, c.length + buf.length,
          rsz, rk, cp, none, now0 + 1000, 1000⟩, fsSet fs p c) := by
      unfold write
      rw [hre]
    refine ⟨by rw [hwr], by rw [hwr], fun hlt => ?_⟩
    rw [hwr]
    dsimp only
    unfold FileAppender.flush
    dsimp only
    rw [if_neg (by omega)]
    dsimp only
    rw [fsLookup_fsAppend_self (fsSet fs p c) p ([] ++ buf) c
      (fsSet_self_lookup fs p c)]
    simp

theorem C8_reopen_resume_witness :
    ((reopen_if_needed none 0 (FileAppender.new "log" false 10 2 false 0)
        [("log", [5, 6])]).1 = .ok () ∧
      (reopen_if_needed none 0 (FileAppender.new "log" false 10 2 false 0)
        [("log", [5, 6])]).2.1.written_size = 2) ∧
    ((write none 0 [7] (FileAppender.new "log" false 10 2 false 0)
        [("log", [5, 6])]).1 = .ok 1 ∧
      (write none 0 [7] (FileAppender.new "log" false 10 2 false 0)
        [("log", [5, 6])]).2.1.written_size = 3 ∧
      fsLookup (FileAppender.flush none 0
        (write none 0 [7] (FileAppender.new "log" false 10 2 false 0)
          [("log", [5, 6])]).2.1
        (write none 0 [7] (FileAppender.new "log" false 10 2 false 0)
          [("log", [5, 6])]).2.2).2.2.1 "log" = some [5, 6, 7]) := by
  constructor
  · have h := C8_reopen_resume.1 0 (FileAppender.new "log" false 10 2 false 0)
      [("log", [5, 6])] (Or.inl rfl)
    exact ⟨h.1, h.2.2.1.trans (by decide)⟩
  · have h := C8_reopen_resume.2 "log" [5, 6] 10 2 false 0
      [("log", [5, 6])] [7] (by decide)
    exact ⟨h.1, h.2.1, h.2.2 (by decide)⟩


open FileAppender

/-- Claim C2: over any event interleaving from a fresh appender, at most
one compressor worker is ever in flight; and while one is pending, a
further write or flush (in particular a rotation attempt at the flush
threshold) spawns no second worker and leaves the pending worker's three
files untouched. -/
theorem C2_single_compression_in_flight (enc : List Byte → List Byte)
    (evs : List Ev) (p : String) (tr : Bool) (rsz rk : Nat) (cp : Bool)
    (now0 : Nat) (fs0 : FS) :
    (runSys enc evs (initSys p tr rsz rk cp now0 fs0)).workers.length ≤ 1 ∧
    (∀ t, (runSys enc evs (initSys p tr rsz rk cp now0 fs0)).workers = [t] →
      ∀ (now : Nat) (oe : Option IoErr) (buf : List Byte),
        (stepSys enc (.flush now oe)
          (runSys enc evs (initSys p tr rsz rk cp now0 fs0))).workers = [t] ∧
        (stepSys enc (.write now oe buf)
          (runSys enc evs (initSys p tr rsz rk cp now0 fs0))).workers = [t] ∧
        (∀ q, q = t.plain ∨ q = t.temp ∨ q = t.final →
          fsLookup (stepSys enc (.flush now oe)
              (runSys enc evs (initSys p tr rsz rk cp now0 fs0))).fs q =
            fsLookup (runSys enc evs (initSys p tr rsz rk cp now0 fs0)).fs q ∧
          fsLookup (stepSys enc (.write now oe buf)
              (runSys enc evs (initSys p tr rsz rk cp now0 fs0))).fs q =
            fsLookup (runSys enc evs (initSys p tr rsz rk cp now0 fs0)).fs q)) := by
  have hinv := sysInv_run enc evs _ (sysInv_init p tr rsz rk cp now0 fs0)
  refine ⟨hinv.1, fun t hw now oe buf => ?_⟩
  have hmem : t ∈ (runSys enc evs (initSys p tr rsz rk cp now0 fs0)).workers := by
    rw [hw]
    exact List.mem_singleton.mpr rfl
  obtain ⟨h1, hq1, hq2, hq3⟩ := hinv.2 t hmem
  have pend := flush_pending oe now
    (runSys enc evs (initSys p tr rsz rk cp now0 fs0)).app
    (runSys enc evs (initSys p tr rsz rk cp now0 fs0)).fs h1
  have wf := write_frame oe now buf
    (runSys enc evs (initSys p tr rsz rk cp now0 fs0)).app
    (runSys enc evs (initSys p tr rsz rk cp now0 fs0)).fs
  refine ⟨?_, ?_, fun q hq => ?_⟩
  · dsimp only [stepSys]
    rw [pend.2.2.1, hw]
    rfl
  · dsimp only [stepSys]
    exact hw
  · have hqp : q ≠ (runSys enc evs (initSys p tr rsz rk cp now0 fs0)).app.path := by
      rcases hq with h | h | h <;> rw [h] <;> assumption
    exact ⟨pend.2.2.2 q hqp, wf.2.2 q hqp⟩

theorem C2_single_compression_in_flight_witness :
    (runSys (fun c => c)
      [.write 0 none [104], .flush 0 none, .write 0 none [105]]
      (initSys "log" false 1 1 true 0 [])).workers =
      [⟨"log.1", "log.1.gz.temp", "log.1.gz"⟩] ∧
    (stepSys (fun c => c) (.flush 5 none)
      (runSys (fun c => c)
        [.write 0 none [104], .flush 0 none, .write 0 none [105]]
        (initSys "log" false 1 1 true 0 []))).workers =
      [⟨"log.1", "log.1.gz.temp", "log.1.gz"⟩] ∧
    fsLookup (stepSys (fun c => c) (.flush 5 none)
      (runSys (fun c => c)
        [.write 0 none [104], .flush 0 none, .write 0 none [105]]
        (initSys "log" false 1 1 true 0 []))).fs "log.1" =
      fsLookup (runSys (fun c => c)
        [.write 0 none [104], .flush 0 none, .write 0 none [105]]
        (initSys "log" false 1 1 true 0 [])).fs "log.1" := by
  have h := (C2_single_compression_in_flight (fun c => c)
    [.write 0 none [104], .flush 0 none, .write 0 none [105]]
    "log" false 1 1 true 0 []).2
    ⟨"log.1", "log.1.gz.temp", "log.1.gz"⟩ (by decide) 5 none [42]
  exact ⟨by decide, h.1, (h.2.2 "log.1" (Or.inl rfl)).1⟩


end SlogRotate
